import Mathlib

/-!
Shallow embedding of the POM voxel-robot kinematics engine
(`POM/pom.py` of mtebyani/VOXELS), together with theorems checking the
natural-language specification against the code.

Conventions: numpy float arrays become functions out of `Fin 3` into `ℚ`
(every value the code manipulates is an integer multiple of the inputs, so
rational arithmetic is exact); lattice coordinates are `ℤ`; node ids are
`Fin 6`; raising an exception in a constructor becomes returning `none` /
`Except.error`.
-/

/-- The constant sign tensor `A`, indexed `A[plane][direction][node-id]`,
transcribed from the top of `pom.py`. -/
def A : Fin 3 → Fin 3 → Fin 6 → ℤ :=
  ![![![0, 0, 0, 0, 0, 0],
     ![0, 0, 1, 0, 0, -1],
     ![0, -1, 0, 0, 1, 0]],
    ![![0, 0, -1, 0, 0, 1],
     ![0, 0, 0, 0, 0, 0],
     ![1, 0, 0, -1, 0, 0]],
    ![![0, 1, 0, 0, -1, 0],
     ![-1, 0, 0, 1, 0, 0],
     ![0, 0, 0, 0, 0, 0]]]

/-- `Node`: an integer lattice position plus an identity in `0..5`
(`assert nid in range(6)` is captured by the `Fin 6` field). -/
structure Node where
  x : ℤ
  y : ℤ
  z : ℤ
  id : Fin 6
  deriving DecidableEq

/-- `self.pos`, the stored coordinate array of a node. -/
def Node.pos (n : Node) : Fin 3 → ℤ := ![n.x, n.y, n.z]

/-- `Node.__init__` as a fallible constructor: the only check in the code is
`assert nid in range(6)`. -/
def Node.make (x y z : ℤ) (nid : ℕ) : Option Node :=
  if h : nid < 6 then some ⟨x, y, z, ⟨nid, h⟩⟩ else none

/-- `Node._normalized_pos`: `pos + (arange(3) == id % 3) * (id // 3)`. -/
def Node.normalizedPos (n : Node) (i : Fin 3) : ℤ :=
  n.pos i + (if i.val = n.id.val % 3 then ((n.id.val / 3 : ℕ) : ℤ) else 0)

/-- `Node.planes_match`: elementwise equality of normalized positions,
returned as a boolean vector. -/
def Node.planes_match (a b : Node) (i : Fin 3) : Bool :=
  a.normalizedPos i == b.normalizedPos i

/-- `Servo`: a mounting node and an actuation direction. -/
structure Servo where
  node : Node
  direction : Fin 3
  deriving DecidableEq

/-- `Servo.__init__` as a fallible constructor: raises (returns `none`)
exactly when `node.id % 3 == direction`; `assert direction in range(3)` is
captured by `Fin 3`. -/
def Servo.make (node : Node) (direction : Fin 3) : Option Servo :=
  if node.id.val % 3 = direction.val then none else some ⟨node, direction⟩

/-- `self._planes = np.arange(3) != direction`. -/
def Servo.planes (s : Servo) (p : Fin 3) : Bool :=
  p != s.direction

/-- `self._c_id = A[:, direction, node.id].sum()`. -/
def Servo.cId (s : Servo) : ℤ :=
  A 0 s.direction s.node.id + A 1 s.direction s.node.id
    + A 2 s.direction s.node.id

/-- `c_pos = (-1)**abs((self.node.pos - node.pos).sum())`. -/
def Servo.cPos (s : Servo) (n : Node) : ℤ :=
  (-1) ^ ((s.node.x - n.x) + (s.node.y - n.y) + (s.node.z - n.z)).natAbs

/-- `Servo.shared_planes`:
`np.nonzero(self.node.planes_match(node) & self._planes)[0]`. -/
def Servo.sharedPlanes (s : Servo) (n : Node) : List (Fin 3) :=
  (List.finRange 3).filter (fun p => s.node.planes_match n p && s.planes p)

/-- `Servo.actuate`: starts from the zero vector and, for each shared
plane `p`, adds `c_id * c_pos * amount * A[p, :, node.id]`. -/
def Servo.actuate (s : Servo) (n : Node) (amount : ℚ) (i : Fin 3) : ℚ :=
  ((s.sharedPlanes n).map
    (fun p => (s.cId : ℚ) * (s.cPos n : ℚ) * amount * (A p i n.id : ℚ))).sum

/-- `Servo.conflicts_with`:
`np.any(self._planes & other._planes & self.node.planes_match(other.node))`. -/
def Servo.conflicts_with (a b : Servo) : Bool :=
  (List.finRange 3).any
    (fun p => a.planes p && b.planes p && a.node.planes_match b.node p)

/-- `Voxels`: an ordered list of servos and of effector nodes. -/
structure Voxels where
  servos : List Servo
  effectors : List Node
  deriving DecidableEq

/-- `Voxels.add_servo`: builds the node and servo (propagating the
degenerate-servo failure), raises `ValueError` on the first conflict with an
existing servo, otherwise appends the new servo. -/
def Voxels.add_servo (v : Voxels) (x y z : ℤ) (nid : Fin 6) (direction : Fin 3) :
    Except String Voxels :=
  match Servo.make ⟨x, y, z, nid⟩ direction with
  | none => Except.error "degenerate servo"
  | some new =>
    if v.servos.any (fun s => s.conflicts_with new) then
      Except.error "Servo makes system overdetermined."
    else
      Except.ok ⟨v.servos ++ [new], v.effectors⟩

/-- `Voxels.add_effector`: unconditionally appends a node. -/
def Voxels.add_effector (v : Voxels) (x y z : ℤ) (nid : Fin 6) : Voxels :=
  ⟨v.servos, v.effectors ++ [⟨x, y, z, nid⟩]⟩

/-- `Voxels.actuate`: for each effector in order, the sum over
`zip(amounts, servos)` of the per-servo contributions. -/
def Voxels.actuate (v : Voxels) (amounts : List ℚ) : List (Fin 3 → ℚ) :=
  v.effectors.map
    (fun e i => (List.zipWith (fun a s => s.actuate e a i) amounts v.servos).sum)

/-- Following the spec (§4.3): the plane of motion of a mounting-node family
and direction, the single axis equal to neither the actuation direction nor
the node's free axis (`id % 3`). -/
def pomOf (d : Fin 3) (m : Fin 6) : Fin 3 :=
  ⟨(3 - d.val - m.val % 3) % 3, by omega⟩

/-- Following the spec (§4.3): `plane_of_motion` of a servo. -/
def Servo.pom (s : Servo) : Fin 3 :=
  pomOf s.direction s.node.id

/-- Following the spec (§4.3): `other_node`, the node offset by two lattice
units along the actuation direction, carrying the paired node id. -/
def Servo.otherNode (s : Servo) : Node :=
  ⟨s.node.x + (if s.direction = 0 then 2 else 0),
   s.node.y + (if s.direction = 1 then 2 else 0),
   s.node.z + (if s.direction = 2 then 2 else 0),
   ⟨(s.node.id.val + 3) % 6, by omega⟩⟩

/-- Following the spec (§4.3): the claimed parity sign
`(-1) ^ (|Δposition|.sum() / 2)` between the mounting node and a target. -/
def specParitySign (s : Servo) (n : Node) : ℚ :=
  (-1) ^ (((s.node.x - n.x).natAbs + (s.node.y - n.y).natAbs
    + (s.node.z - n.z).natAbs) / 2)

/-- Following the spec (§4.3): the claimed value of `Servo.actuate`, for
comparison with the embedded code: zero when the target's coordinate along
the plane of motion differs from the servo's, and otherwise
`amount * ideality_factor * sign_correction * parity_sign`
projected through `A[plane_of_motion, :, target.id]`. -/
def specActuate (s : Servo) (ideality : ℚ) (n : Node) (amount : ℚ)
    (i : Fin 3) : ℚ :=
  if s.node.pos s.pom = n.pos s.pom then
    (amount * (if n = s.node ∨ n = s.otherNode then 1 else ideality)
        * (A s.pom s.direction s.node.id : ℚ) * specParitySign s n)
      * (A s.pom i n.id : ℚ)
  else 0

/-- Following the spec (§3, §4.1): a lattice position is valid when the
coordinate parities identify exactly one even axis. -/
def specOneEvenAxis (x y z : ℤ) : Prop :=
  ((if x % 2 = 0 then 1 else 0) + (if y % 2 = 0 then 1 else 0)
    + (if z % 2 = 0 then 1 else 0) : ℕ) = 1

/-- Modelled from the spec (§4.5): column `t` of a gait matrix given as one
row per servo. -/
def gaitColumn (gait : List (List ℚ)) (t : ℕ) : List ℚ :=
  gait.map (fun row => row.getD t 0)

/-- Modelled from the spec: `Voxels.simulate` is described in §4.5 but is
absent from `src/POM/pom.py`; per the spec it calls `actuate` on each
timestep column of the gait and stacks the results along the time axis. -/
def Voxels.simulate (v : Voxels) (gait : List (List ℚ)) (T : ℕ) :
    List (List (Fin 3 → ℚ)) :=
  (List.range T).map (fun t => v.actuate (gaitColumn gait t))

-- Sanity checks against the repository's own test suite
-- (`TestServoInvariants.TestBaseNodeMovesByActuationAmount`, `test_node_1_X`).

example :
    Servo.actuate ⟨⟨0, 0, 0, 1⟩, 0⟩ ⟨0, 0, 0, 1⟩ 5 0 = 5 := by
  have h1 : Servo.sharedPlanes ⟨⟨0, 0, 0, 1⟩, 0⟩ ⟨0, 0, 0, 1⟩ = [1, 2] := by
    decide
  have h2 : Servo.cId ⟨⟨0, 0, 0, 1⟩, 0⟩ = 1 := by decide
  have h3 : Servo.cPos ⟨⟨0, 0, 0, 1⟩, 0⟩ ⟨0, 0, 0, 1⟩ = 1 := by decide
  have h4 : A 1 0 1 = 0 := by decide
  have h5 : A 2 0 1 = 1 := by decide
  simp [Servo.actuate, h1, h2, h3, h4, h5]

example :
    Servo.actuate ⟨⟨0, 0, 0, 1⟩, 0⟩ ⟨0, -1, 0, 4⟩ 5 0 = 5 := by
  have h1 : Servo.sharedPlanes ⟨⟨0, 0, 0, 1⟩, 0⟩ ⟨0, -1, 0, 4⟩ = [1, 2] := by
    decide
  have h2 : Servo.cId ⟨⟨0, 0, 0, 1⟩, 0⟩ = 1 := by decide
  have h3 : Servo.cPos ⟨⟨0, 0, 0, 1⟩, 0⟩ ⟨0, -1, 0, 4⟩ = -1 := by decide
  have h4 : A 1 0 4 = 0 := by decide
  have h5 : A 2 0 4 = -1 := by decide
  simp [Servo.actuate, h1, h2, h3, h4, h5]

-- General-purpose lemmas about the embedded code, shared by the claim
-- theorems below.

lemma sum_filter_fin3 (q : Fin 3 → Bool) (g : Fin 3 → ℚ) :
    (((List.finRange 3).filter q).map g).sum
      = ∑ p : Fin 3, if q p then g p else 0 := by
  have h : List.finRange 3 = [0, 1, 2] := by decide
  rw [h]
  rcases hq0 : q 0 <;> rcases hq1 : q 1 <;> rcases hq2 : q 2 <;>
    simp [List.filter_cons, hq0, hq1, hq2, Fin.sum_univ_three, add_assoc]

lemma Servo.actuate_eq_sum (s : Servo) (n : Node) (a : ℚ) (i : Fin 3) :
    s.actuate n a i
      = ∑ p : Fin 3, if s.node.planes_match n p && s.planes p
          then (s.cId : ℚ) * (s.cPos n : ℚ) * a * (A p i n.id : ℚ) else 0 := by
  rw [Servo.actuate, Servo.sharedPlanes, sum_filter_fin3]

lemma cId_eq_pom_entry : ∀ (d : Fin 3) (m : Fin 6), m.val % 3 ≠ d.val →
    A 0 d m + A 1 d m + A 2 d m = A (pomOf d m) d m := by
  decide

lemma conflicts_with_iff (a b : Servo) :
    a.conflicts_with b = true
      ↔ ∃ p : Fin 3, p ≠ a.direction ∧ p ≠ b.direction
          ∧ a.node.normalizedPos p = b.node.normalizedPos p := by
  rw [Servo.conflicts_with, List.any_eq_true]
  constructor
  · rintro ⟨p, -, hp⟩
    simp only [Servo.planes, Node.planes_match, Bool.and_eq_true, bne_iff_ne,
      beq_iff_eq] at hp
    exact ⟨p, hp.1.1, hp.1.2, hp.2⟩
  · rintro ⟨p, h1, h2, h3⟩
    refine ⟨p, by simp [List.mem_finRange], ?_⟩
    simp [Servo.planes, Node.planes_match, h1, h2, h3]

lemma Servo.actuate_smul (s : Servo) (n : Node) (k a : ℚ) (i : Fin 3) :
    s.actuate n (k * a) i = k * s.actuate n a i := by
  rw [Servo.actuate, Servo.actuate]
  generalize s.sharedPlanes n = L
  induction L with
  | nil => simp
  | cons p t ih => simp only [List.map_cons, List.sum_cons, ih]; ring

lemma Servo.actuate_add_amount (s : Servo) (n : Node) (a b : ℚ) (i : Fin 3) :
    s.actuate n (a + b) i = s.actuate n a i + s.actuate n b i := by
  rw [Servo.actuate, Servo.actuate, Servo.actuate]
  generalize s.sharedPlanes n = L
  induction L with
  | nil => simp
  | cons p t ih => simp only [List.map_cons, List.sum_cons, ih]; ring

lemma zipsum_smul (u : List ℚ) (ss : List Servo) (e : Node) (i : Fin 3)
    (k : ℚ) :
    (List.zipWith (fun a s => Servo.actuate s e a i) (u.map (fun a => k * a))
        ss).sum
      = k * (List.zipWith (fun a s => Servo.actuate s e a i) u ss).sum := by
  induction u generalizing ss with
  | nil => simp
  | cons a t ih =>
    cases ss with
    | nil => simp
    | cons s ts =>
      simp only [List.map_cons, List.zipWith_cons_cons, List.sum_cons, ih,
        Servo.actuate_smul]
      ring

lemma zipsum_add (u w : List ℚ) (ss : List Servo) (e : Node) (i : Fin 3)
    (h : u.length = w.length) :
    (List.zipWith (fun a s => Servo.actuate s e a i)
        (List.zipWith (fun a b => a + b) u w) ss).sum
      = (List.zipWith (fun a s => Servo.actuate s e a i) u ss).sum
        + (List.zipWith (fun a s => Servo.actuate s e a i) w ss).sum := by
  induction u generalizing w ss with
  | nil =>
    cases w with
    | nil => simp
    | cons b tw => exact absurd h (by simp)
  | cons a t ih =>
    cases w with
    | nil => exact absurd h (by simp)
    | cons b tw =>
      cases ss with
      | nil => simp
      | cons s ts =>
        simp only [List.zipWith_cons_cons, List.sum_cons,
          Servo.actuate_add_amount, ih tw ts (by simpa using h)]
        ring

-- C4 --

/-- C4 counterexample: two validly-constructed servos with distinct planes of
motion (axis 2 for the first, axis 1 for the second) for which
`conflicts_with` nevertheless returns `true`, because the code checks every
axis outside the two actuation directions, not only the plane of motion. -/
theorem conflicts_with_pom_cex :
    Servo.make ⟨1, 0, 1, 1⟩ 0 = some ⟨⟨1, 0, 1, 1⟩, 0⟩
    ∧ Servo.make ⟨1, 1, 0, 5⟩ 0 = some ⟨⟨1, 1, 0, 5⟩, 0⟩
    ∧ Servo.conflicts_with ⟨⟨1, 0, 1, 1⟩, 0⟩ ⟨⟨1, 1, 0, 5⟩, 0⟩ = true
    ∧ Servo.pom ⟨⟨1, 0, 1, 1⟩, 0⟩ ≠ Servo.pom ⟨⟨1, 1, 0, 5⟩, 0⟩ := by
  refine ⟨by decide, by decide, by decide, by decide⟩

/-- C4 (amended): `a.conflicts_with b` is true iff some axis distinct from
both servos' actuation directions carries equal normalized coordinates at the
two mounting nodes. -/
theorem conflicts_with_characterization (a b : Servo) :
    a.conflicts_with b = true
      ↔ ∃ p : Fin 3, p ≠ a.direction ∧ p ≠ b.direction
          ∧ a.node.normalizedPos p = b.node.normalizedPos p :=
  conflicts_with_iff a b

-- C9 --

/-- C9: servo conflict detection is symmetric. -/
theorem conflicts_with_symm (a b : Servo) :
    a.conflicts_with b = b.conflicts_with a := by
  refine Bool.eq_iff_iff.mpr ?_
  rw [conflicts_with_iff, conflicts_with_iff]
  constructor <;> rintro ⟨p, h1, h2, h3⟩ <;> exact ⟨p, h2, h1, h3.symm⟩

-- C5 --

/-- C5 counterexample: the origin has three even coordinates, so per the
claim node construction there must fail, yet the code accepts it (the only
check in `Node.__init__` is `assert nid in range(6)`). -/
theorem node_make_parity_cex :
    ¬ specOneEvenAxis 0 0 0 ∧ Node.make 0 0 0 0 = some ⟨0, 0, 0, 0⟩ := by
  exact ⟨by norm_num [specOneEvenAxis], by decide⟩

/-- C5 (amended): node construction succeeds exactly when the supplied id is
in `0..5`; coordinate parities are never validated and no axis is inferred
from them. -/
theorem node_make_isSome_iff (x y z : ℤ) (nid : ℕ) :
    (Node.make x y z nid).isSome = true ↔ nid < 6 := by
  by_cases h : nid < 6 <;> simp [Node.make, h]

-- C8 --

/-- C8: constructing a servo whose actuation direction equals the mounting
node's free axis (`id % 3`) always fails, and no servo value is produced. -/
theorem servo_make_degenerate (n : Node) (d : Fin 3)
    (h : d.val = n.id.val % 3) : Servo.make n d = none := by
  rw [Servo.make, if_pos h.symm]

/-- Witness for C8 at the concrete node `(0,0,0)` with id `0`, direction X. -/
theorem servo_make_degenerate_witness :
    (0 : Fin 3).val = (Node.mk 0 0 0 0).id.val % 3
    ∧ Servo.make ⟨0, 0, 0, 0⟩ 0 = none :=
  ⟨rfl, servo_make_degenerate ⟨0, 0, 0, 0⟩ 0 rfl⟩

-- C7 --

/-- C7: when the candidate servo is constructible, `add_servo` fails with the
overdetermined-system error exactly when the candidate conflicts with some
already-added servo (producing no new assembly, so the stored lists are
untouched), and otherwise returns the assembly with exactly the new servo
appended at the end and the effectors unchanged. -/
theorem voxels_add_servo_spec (v : Voxels) (x y z : ℤ) (nid : Fin 6)
    (d : Fin 3) (new : Servo)
    (hmk : Servo.make ⟨x, y, z, nid⟩ d = some new) :
    ((∃ s ∈ v.servos, s.conflicts_with new = true) →
        v.add_servo x y z nid d
          = Except.error "Servo makes system overdetermined.")
    ∧ ((∀ s ∈ v.servos, s.conflicts_with new = false) →
        v.add_servo x y z nid d = Except.ok ⟨v.servos ++ [new], v.effectors⟩) := by
  constructor <;> intro h <;> simp only [Voxels.add_servo, hmk]
  · rw [if_pos (List.any_eq_true.mpr (by simpa using h))]
  · rw [if_neg]
    simp only [List.any_eq_true, not_exists]
    rintro s ⟨hs, hc⟩
    exact absurd hc (by simp [h s hs])

/-- Witness for C7: adding a servo to an empty assembly appends it; adding a
conflicting second copy raises the overdetermined error. -/
theorem voxels_add_servo_spec_witness :
    Servo.make ⟨0, 0, 0, 1⟩ 0 = some ⟨⟨0, 0, 0, 1⟩, 0⟩
    ∧ Voxels.add_servo ⟨[], []⟩ 0 0 0 1 0
        = Except.ok ⟨[⟨⟨0, 0, 0, 1⟩, 0⟩], []⟩
    ∧ Voxels.add_servo ⟨[⟨⟨0, 0, 0, 1⟩, 0⟩], []⟩ 0 0 0 1 0
        = Except.error "Servo makes system overdetermined." :=
  ⟨rfl,
   (voxels_add_servo_spec ⟨[], []⟩ 0 0 0 1 0 ⟨⟨0, 0, 0, 1⟩, 0⟩ rfl).2
     (by simp),
   (voxels_add_servo_spec ⟨[⟨⟨0, 0, 0, 1⟩, 0⟩], []⟩ 0 0 0 1 0
       ⟨⟨0, 0, 0, 1⟩, 0⟩ rfl).1
     ⟨⟨⟨0, 0, 0, 1⟩, 0⟩, by simp, by decide⟩⟩

-- C1 --

/-- C1 counterexample: a validly-constructed servo and a target whose
coordinate along the plane of motion equals the servo's, where the code's
`actuate` disagrees with the spec formula (the code uses the parity sign
`(-1)^|Δposition.sum()|`, not `(-1)^(|Δposition|.sum()/2)`, and sums over
every matching non-direction plane). -/
theorem servo_actuate_spec_formula_cex :
    Servo.make ⟨1, 0, 1, 1⟩ 0 = some ⟨⟨1, 0, 1, 1⟩, 0⟩
    ∧ Node.pos ⟨1, 0, 1, 1⟩ (Servo.pom ⟨⟨1, 0, 1, 1⟩, 0⟩)
        = Node.pos ⟨0, 1, 1, 0⟩ (Servo.pom ⟨⟨1, 0, 1, 1⟩, 0⟩)
    ∧ Servo.actuate ⟨⟨1, 0, 1, 1⟩, 0⟩ ⟨0, 1, 1, 0⟩ 1 1
        ≠ specActuate ⟨⟨1, 0, 1, 1⟩, 0⟩ 1 ⟨0, 1, 1, 0⟩ 1 1 := by
  refine ⟨by decide, by decide, ?_⟩
  have e1 : Servo.actuate ⟨⟨1, 0, 1, 1⟩, 0⟩ ⟨0, 1, 1, 0⟩ 1 1 = -1 := by
    have h1 : Servo.sharedPlanes ⟨⟨1, 0, 1, 1⟩, 0⟩ ⟨0, 1, 1, 0⟩ = [2] := by
      decide
    have h2 : Servo.cId ⟨⟨1, 0, 1, 1⟩, 0⟩ = 1 := by decide
    have h3 : Servo.cPos ⟨⟨1, 0, 1, 1⟩, 0⟩ ⟨0, 1, 1, 0⟩ = 1 := by decide
    have h4 : A 2 1 0 = -1 := by decide
    norm_num [Servo.actuate, h1, h2, h3, h4]
  have e2 : specActuate ⟨⟨1, 0, 1, 1⟩, 0⟩ 1 ⟨0, 1, 1, 0⟩ 1 1 = 1 := by
    have hpom : Servo.pom ⟨⟨1, 0, 1, 1⟩, 0⟩ = 2 := by decide
    have hpos : Node.pos ⟨1, 0, 1, 1⟩ (Servo.pom ⟨⟨1, 0, 1, 1⟩, 0⟩)
        = Node.pos ⟨0, 1, 1, 0⟩ (Servo.pom ⟨⟨1, 0, 1, 1⟩, 0⟩) := by decide
    have hoth : ¬((Node.mk 0 1 1 0) = (Node.mk 1 0 1 1)
        ∨ (Node.mk 0 1 1 0) = Servo.otherNode ⟨⟨1, 0, 1, 1⟩, 0⟩) := by decide
    have hexp : (((1 : ℤ) - 0).natAbs + ((0 : ℤ) - 1).natAbs
        + ((1 : ℤ) - 1).natAbs) / 2 = 1 := by decide
    have hps : specParitySign ⟨⟨1, 0, 1, 1⟩, 0⟩ ⟨0, 1, 1, 0⟩ = -1 := by
      rw [specParitySign]
      norm_num [hexp]
    have hA1 : A 2 0 1 = 1 := by decide
    have hA2 : A 2 1 0 = -1 := by decide
    rw [specActuate, if_pos hpos]
    norm_num [hpom, hoth, hps, hA1, hA2]
  rw [e1, e2]
  norm_num

/-- C1 (amended): for a validly-constructed servo, `actuate` equals
`amount * sign_correction * parity_sign` projected through
`A[p, :, target.id]` summed over EVERY axis `p` other than the actuation
direction along which the normalized positions agree, where
`sign_correction = A[plane_of_motion, direction, node.id]` and
`parity_sign = (-1)^|Δposition.sum()|`; there is no ideality factor. -/
theorem servo_actuate_closed_form (s : Servo) (n : Node) (a : ℚ)
    (hv : s.node.id.val % 3 ≠ s.direction.val) :
    s.actuate n a = fun i =>
      a * (A s.pom s.direction s.node.id : ℚ) * (s.cPos n : ℚ)
        * ∑ p : Fin 3,
            if p ≠ s.direction ∧ s.node.normalizedPos p = n.normalizedPos p
            then (A p i n.id : ℚ) else 0 := by
  funext i
  rw [Servo.actuate_eq_sum]
  have hc : (s.cId : ℚ) = (A s.pom s.direction s.node.id : ℚ) := by
    have h := cId_eq_pom_entry s.direction s.node.id hv
    rw [Servo.cId, h]
    rfl
  rw [Finset.mul_sum]
  refine Finset.sum_congr rfl (fun p _ => ?_)
  have hg : (s.node.planes_match n p && s.planes p) = true
      ↔ (p ≠ s.direction ∧ s.node.normalizedPos p = n.normalizedPos p) := by
    simp [Node.planes_match, Servo.planes, and_comm]
  by_cases hp : p ≠ s.direction ∧ s.node.normalizedPos p = n.normalizedPos p
  · rw [if_pos (hg.mpr hp), if_pos hp, hc]
    ring
  · rw [if_neg (fun hb => hp (hg.mp hb)), if_neg hp]
    ring

/-- Witness for C1 (amended) at the servo of the counterexample. -/
theorem servo_actuate_closed_form_witness :
    ((Servo.mk ⟨1, 0, 1, 1⟩ 0).node.id.val % 3
        ≠ (Servo.mk ⟨1, 0, 1, 1⟩ 0).direction.val)
    ∧ Servo.actuate ⟨⟨1, 0, 1, 1⟩, 0⟩ ⟨0, 1, 1, 0⟩ 1 = fun i =>
        1 * (A (Servo.pom ⟨⟨1, 0, 1, 1⟩, 0⟩) 0 1 : ℚ)
          * (Servo.cPos ⟨⟨1, 0, 1, 1⟩, 0⟩ ⟨0, 1, 1, 0⟩ : ℚ)
          * ∑ p : Fin 3,
              if p ≠ 0 ∧ Node.normalizedPos ⟨1, 0, 1, 1⟩ p
                  = Node.normalizedPos ⟨0, 1, 1, 0⟩ p
              then (A p i 0 : ℚ) else 0 :=
  ⟨by decide,
   servo_actuate_closed_form ⟨⟨1, 0, 1, 1⟩, 0⟩ ⟨0, 1, 1, 0⟩ 1 (by decide)⟩

-- C6 --

/-- C6 counterexample: a validly-constructed servo and a node whose
coordinate along the servo's plane of motion (axis 2) differs from the
servo's, yet `actuate` is nonzero, because the target matches the servo on
the other non-direction axis. -/
theorem servo_actuate_locality_cex :
    Servo.make ⟨1, 0, 1, 4⟩ 0 = some ⟨⟨1, 0, 1, 4⟩, 0⟩
    ∧ Node.pos ⟨1, 0, 1, 4⟩ (Servo.pom ⟨⟨1, 0, 1, 4⟩, 0⟩)
        ≠ Node.pos ⟨1, 1, 0, 2⟩ (Servo.pom ⟨⟨1, 0, 1, 4⟩, 0⟩)
    ∧ Servo.actuate ⟨⟨1, 0, 1, 4⟩, 0⟩ ⟨1, 1, 0, 2⟩ 1 0 ≠ 0 := by
  refine ⟨by decide, by decide, ?_⟩
  have h1 : Servo.sharedPlanes ⟨⟨1, 0, 1, 4⟩, 0⟩ ⟨1, 1, 0, 2⟩ = [1] := by
    decide
  have h2 : Servo.cId ⟨⟨1, 0, 1, 4⟩, 0⟩ = -1 := by decide
  have h3 : Servo.cPos ⟨⟨1, 0, 1, 4⟩, 0⟩ ⟨1, 1, 0, 2⟩ = 1 := by decide
  have h4 : A 1 0 2 = -1 := by decide
  norm_num [Servo.actuate, h1, h2, h3, h4]

/-- C6 (amended): `actuate` returns the zero vector whenever the target's
normalized position differs from the servo's along every axis other than
the actuation direction. -/
theorem servo_actuate_zero_of_no_shared (s : Servo) (n : Node) (a : ℚ)
    (h : ∀ p : Fin 3, p ≠ s.direction →
      s.node.normalizedPos p ≠ n.normalizedPos p) :
    s.actuate n a = fun _i => 0 := by
  funext i
  have hs : s.sharedPlanes n = [] := by
    rw [Servo.sharedPlanes]
    refine List.filter_eq_nil_iff.mpr (fun p _ => ?_)
    simp only [Bool.and_eq_true, Node.planes_match, beq_iff_eq, Servo.planes,
      bne_iff_ne, not_and, not_not]
    intro heq
    by_contra hne
    exact h p hne heq
  rw [Servo.actuate, hs]
  simp

/-- Witness for C6 (amended): a servo and a fully-disjoint node. -/
theorem servo_actuate_zero_of_no_shared_witness :
    (∀ p : Fin 3, p ≠ (Servo.mk ⟨0, 0, 0, 1⟩ 0).direction →
      Node.normalizedPos ⟨0, 0, 0, 1⟩ p ≠ Node.normalizedPos ⟨5, 7, 9, 1⟩ p)
    ∧ Servo.actuate ⟨⟨0, 0, 0, 1⟩, 0⟩ ⟨5, 7, 9, 1⟩ 1 = fun _i => 0 :=
  ⟨by decide,
   servo_actuate_zero_of_no_shared ⟨⟨0, 0, 0, 1⟩, 0⟩ ⟨5, 7, 9, 1⟩ 1 (by decide)⟩

-- C10 --

lemma cast_sum_planes (d : Fin 3) (m : Fin 6) (i : Fin 3) :
    ((∑ p : Fin 3, if (p != d) = true then A p i m else 0 : ℤ) : ℚ)
      = ∑ p : Fin 3, if (p != d) = true then (A p i m : ℚ) else 0 := by
  rw [Fin.sum_univ_three, Fin.sum_univ_three]
  split_ifs <;> push_cast <;> ring

lemma cId_mul_sum_planes : ∀ (d : Fin 3) (m : Fin 6) (i : Fin 3),
    m.val % 3 ≠ d.val →
    (A 0 d m + A 1 d m + A 2 d m)
        * (∑ p : Fin 3, if (p != d) = true then A p i m else 0)
      = if i = d then 1 else 0 := by
  decide

/-- C10: a validly-constructed servo moves its own mounting node by exactly
the actuation amount along the actuation direction, whatever the node's
position and id. -/
theorem servo_actuate_self (s : Servo) (a : ℚ)
    (hv : s.node.id.val % 3 ≠ s.direction.val) :
    s.actuate s.node a = fun i => if i = s.direction then a else 0 := by
  funext i
  rw [Servo.actuate_eq_sum]
  have hm : ∀ p : Fin 3, s.node.planes_match s.node p = true := fun p => by
    simp [Node.planes_match]
  have hp1 : (s.cPos s.node : ℚ) = 1 := by
    rw [Servo.cPos]
    simp
  have hsum : (∑ p : Fin 3, if s.node.planes_match s.node p && s.planes p
        then (s.cId : ℚ) * (s.cPos s.node : ℚ) * a * (A p i s.node.id : ℚ)
        else 0)
      = (s.cId : ℚ) * (s.cPos s.node : ℚ) * a
          * ∑ p : Fin 3, if (p != s.direction) = true
              then (A p i s.node.id : ℚ) else 0 := by
    rw [Finset.mul_sum]
    refine Finset.sum_congr rfl (fun p _ => ?_)
    rw [hm p, Bool.true_and]
    unfold Servo.planes
    split <;> ring
  rw [hsum, hp1, mul_one, ← cast_sum_planes s.direction s.node.id i]
  calc (s.cId : ℚ) * a
        * ((∑ p : Fin 3, if (p != s.direction) = true
            then A p i s.node.id else 0 : ℤ) : ℚ)
      = ((s.cId * ∑ p : Fin 3, if (p != s.direction) = true
            then A p i s.node.id else 0 : ℤ) : ℚ) * a := by
        push_cast
        ring
    _ = ((if i = s.direction then (1 : ℤ) else 0 : ℤ) : ℚ) * a := by
        rw [Servo.cId, cId_mul_sum_planes s.direction s.node.id i hv]
    _ = if i = s.direction then a else 0 := by
        split <;> simp

/-- Witness for C10 at the servo of the repository's `test_node_1_X`. -/
theorem servo_actuate_self_witness :
    ((Servo.mk ⟨0, 0, 0, 1⟩ 0).node.id.val % 3
        ≠ (Servo.mk ⟨0, 0, 0, 1⟩ 0).direction.val)
    ∧ Servo.actuate ⟨⟨0, 0, 0, 1⟩, 0⟩ ⟨0, 0, 0, 1⟩ 5
        = fun i => if i = 0 then 5 else 0 :=
  ⟨by decide, servo_actuate_self ⟨⟨0, 0, 0, 1⟩, 0⟩ 5 (by decide)⟩

-- C2 --

/-- C2: `Voxels.actuate` is linear in the amounts vector: scaling all
amounts by `k` scales every effector displacement by `k`, and actuating the
pointwise sum of two amount vectors gives the pointwise sum of the two
displacement lists (exact superposition, no cross terms). -/
theorem voxels_actuate_linear (v : Voxels) (k : ℚ) (u w : List ℚ)
    (hu : u.length = v.servos.length) (hw : w.length = v.servos.length) :
    v.actuate (u.map (fun a => k * a))
        = (v.actuate u).map (fun f i => k * f i)
    ∧ v.actuate (List.zipWith (fun a b => a + b) u w)
        = List.zipWith (fun f g i => f i + g i) (v.actuate u)
            (v.actuate w) := by
  constructor
  · rw [Voxels.actuate, Voxels.actuate, List.map_map]
    refine List.map_congr_left (fun e he => ?_)
    funext i
    exact zipsum_smul u v.servos e i k
  · rw [Voxels.actuate, Voxels.actuate, Voxels.actuate, List.zipWith_map,
      List.zipWith_same]
    refine List.map_congr_left (fun e he => ?_)
    funext i
    exact zipsum_add u w v.servos e i (hu.trans hw.symm)

/-- Witness for C2 on a one-servo, one-effector assembly. -/
theorem voxels_actuate_linear_witness :
    ([(1 : ℚ)].length
        = (Voxels.mk [⟨⟨0, 0, 0, 1⟩, 0⟩] [⟨0, 0, 0, 1⟩]).servos.length)
    ∧ ([(3 : ℚ)].length
        = (Voxels.mk [⟨⟨0, 0, 0, 1⟩, 0⟩] [⟨0, 0, 0, 1⟩]).servos.length)
    ∧ (Voxels.actuate ⟨[⟨⟨0, 0, 0, 1⟩, 0⟩], [⟨0, 0, 0, 1⟩]⟩
            (([(1 : ℚ)]).map (fun a => 2 * a))
          = (Voxels.actuate ⟨[⟨⟨0, 0, 0, 1⟩, 0⟩], [⟨0, 0, 0, 1⟩]⟩
              [(1 : ℚ)]).map (fun f i => 2 * f i)
        ∧ Voxels.actuate ⟨[⟨⟨0, 0, 0, 1⟩, 0⟩], [⟨0, 0, 0, 1⟩]⟩
            (List.zipWith (fun a b => a + b) [(1 : ℚ)] [(3 : ℚ)])
          = List.zipWith (fun f g i => f i + g i)
              (Voxels.actuate ⟨[⟨⟨0, 0, 0, 1⟩, 0⟩], [⟨0, 0, 0, 1⟩]⟩ [(1 : ℚ)])
              (Voxels.actuate ⟨[⟨⟨0, 0, 0, 1⟩, 0⟩], [⟨0, 0, 0, 1⟩]⟩
                [(3 : ℚ)])) :=
  ⟨rfl, rfl,
   voxels_actuate_linear ⟨[⟨⟨0, 0, 0, 1⟩, 0⟩], [⟨0, 0, 0, 1⟩]⟩ 2 [1] [3]
     rfl rfl⟩

-- C3 --

/-- C3: `simulate` (modelled from the spec, absent from the code) returns
one assembly-displacement list per timestep: the result has length `T`, its
entry at any timestep `t < T` is exactly `actuate` of gait column `t`, and
every entry has one displacement per effector (shape
`(num_effectors, 3, num_timesteps)` in time-major layout). -/
theorem voxels_simulate_spec (v : Voxels) (gait : List (List ℚ)) (T t : ℕ)
    (ht : t < T) :
    (v.simulate gait T).length = T
    ∧ (v.simulate gait T).getD t [] = v.actuate (gaitColumn gait t)
    ∧ ∀ u ∈ v.simulate gait T, u.length = v.effectors.length := by
  refine ⟨by simp [Voxels.simulate], ?_, ?_⟩
  · rw [Voxels.simulate, List.getD_eq_getElem?_getD, List.getElem?_map]
    simp [List.getElem?_range, ht]
  · intro u hu
    rw [Voxels.simulate] at hu
    simp only [List.mem_map] at hu
    obtain ⟨t0, -, rfl⟩ := hu
    simp [Voxels.actuate]

/-- Witness for C3 on a one-servo, one-effector assembly with a two-step
gait. -/
theorem voxels_simulate_spec_witness :
    1 < 2
    ∧ ((Voxels.simulate ⟨[⟨⟨0, 0, 0, 1⟩, 0⟩], [⟨0, 0, 0, 1⟩]⟩
          [[1, 2]] 2).length = 2
      ∧ (Voxels.simulate ⟨[⟨⟨0, 0, 0, 1⟩, 0⟩], [⟨0, 0, 0, 1⟩]⟩
          [[1, 2]] 2).getD 1 []
          = Voxels.actuate ⟨[⟨⟨0, 0, 0, 1⟩, 0⟩], [⟨0, 0, 0, 1⟩]⟩
              (gaitColumn [[1, 2]] 1)
      ∧ ∀ u ∈ Voxels.simulate ⟨[⟨⟨0, 0, 0, 1⟩, 0⟩], [⟨0, 0, 0, 1⟩]⟩
            [[1, 2]] 2,
          u.length
            = (Voxels.mk [⟨⟨0, 0, 0, 1⟩, 0⟩] [⟨0, 0, 0, 1⟩]).effectors.length) :=
  ⟨by decide,
   voxels_simulate_spec ⟨[⟨⟨0, 0, 0, 1⟩, 0⟩], [⟨0, 0, 0, 1⟩]⟩ [[1, 2]] 2 1
     (by decide)⟩
